import Mathlib

/-!
# Verification of the credential/token core of the course-platform backend

Shallow embedding of `src/app/core/security.py`:

* the password hasher `get_password_hash` / `verify_password`
  (PBKDF2-HMAC-SHA256 with a random salt, serialized as
  `pbkdf2_sha256$<iterations>$<salt_hex>$<dk_hex>`), and
* the token codec `create_access_token` / `decode_token`
  (itsdangerous-signed JSON payloads with `user_id`, `role`, `iat`, `exp`).

Modelling conventions:

* Python byte strings are `List Nat` with each entry `< 256`.
* Python's nondeterministic inputs are explicit parameters: `os.urandom`
  becomes a `salt` argument, `time.time()` a `now : Int` argument.
* `hashlib.pbkdf2_hmac "sha256"` is a parameter
  `pbkdf2 : List Nat → List Nat → Nat → List Nat`
  (password bytes, salt bytes, iteration count ↦ derived key); the
  CPython wrapper around it raises `ValueError` when the iteration count
  is `< 1`, which the embedding records as `none`.
* A Python function that may raise an exception that its caller does not
  catch returns an `Option`; `none` is the escaping exception.
* The itsdangerous `Serializer` is modelled symbolically: a token is
  either a payload signed with some secret, or an arbitrary other string;
  `loads` recovers the payload exactly when the signing secret equals the
  verifying secret and fails (`BadSignature`, modelled `none`) otherwise.
-/

/-- Lowercase hexadecimal digit for `n < 16`, as produced by Python's
`bytes.hex()`. -/
def hexDigitChar (n : Nat) : Char :=
  if n < 10 then Char.ofNat (48 + n) else Char.ofNat (87 + n)

/-- The two lowercase hex digits of one byte (`bytes.hex()`, per byte). -/
def byteToHexL (b : Nat) : List Char :=
  [hexDigitChar (b / 16), hexDigitChar (b % 16)]

/-- Python `bytes.hex()`: lowercase hex, two digits per byte. -/
def bytesToHexL (bs : List Nat) : List Char :=
  (bs.map byteToHexL).flatten

/-- Python `bytes.hex()` packaged as a `String`. -/
def bytesToHex (bs : List Nat) : String :=
  String.mk (bytesToHexL bs)

/-- Value of one hex digit (either case), `none` on a non-hex character. -/
def hexDigitVal (c : Char) : Option Nat :=
  if 48 ≤ c.toNat ∧ c.toNat ≤ 57 then some (c.toNat - 48)
  else if 97 ≤ c.toNat ∧ c.toNat ≤ 102 then some (c.toNat - 87)
  else if 65 ≤ c.toNat ∧ c.toNat ≤ 70 then some (c.toNat - 55)
  else none

/-- Python `bytes.fromhex`: pairs of hex digits; fails (`ValueError`) on an
odd length or a non-hex character. -/
def bytesFromHex : List Char → Option (List Nat)
  | [] => some []
  | [_] => none
  | c1 :: c2 :: rest =>
    match hexDigitVal c1, hexDigitVal c2, bytesFromHex rest with
    | some hi, some lo, some bs => some ((16 * hi + lo) :: bs)
    | _, _, _ => none

/-- Decimal digit value, `none` on a non-digit. -/
def decDigitVal (c : Char) : Option Nat :=
  if 48 ≤ c.toNat ∧ c.toNat ≤ 57 then some (c.toNat - 48) else none

/-- Accumulating decimal reader: fails on the first non-digit. -/
def decDigitsAcc : Nat → List Char → Option Nat
  | acc, [] => some acc
  | acc, c :: cs =>
    match decDigitVal c with
    | some d => decDigitsAcc (10 * acc + d) cs
    | none => none

/-- Python `int(str)` on the inputs this code meets: an optional sign
followed by a non-empty run of decimal digits; `none` models the
`ValueError` on anything else. -/
def pyIntParse (cs : List Char) : Option Int :=
  match cs with
  | [] => none
  | '-' :: rest =>
    if rest = [] then none else (decDigitsAcc 0 rest).map (fun n => -(n : Int))
  | '+' :: rest =>
    if rest = [] then none else (decDigitsAcc 0 rest).map (fun n => (n : Int))
  | _ => (decDigitsAcc 0 cs).map (fun n => (n : Int))

/-- Python `s.split(sep, maxsplit)` on a one-character separator: `fuel` is
the number of splits still allowed; once it reaches `0` the separator is an
ordinary character and joins the final field. `acc` is the current field,
reversed. -/
def pySplitAux (sep : Char) : List Char → Nat → List Char → List (List Char)
  | [], _, acc => [acc.reverse]
  | c :: rest, fuel, acc =>
    if c = sep then
      match fuel with
      | 0 => pySplitAux sep rest 0 (c :: acc)
      | f + 1 => acc.reverse :: pySplitAux sep rest f []
    else pySplitAux sep rest fuel (c :: acc)

/-- Python `s.split(sep, maxsplit)` for a one-character separator. -/
def pySplit (sep : Char) (maxsplit : Nat) (s : String) : List (List Char) :=
  pySplitAux sep s.data maxsplit []

/-- Python `s.split(sep)`: unlimited splitting (a string of length `n` has
at most `n` separators, so `n` splits is unlimited). -/
def pySplitAll (sep : Char) (s : String) : List (List Char) :=
  pySplitAux sep s.data s.data.length []

/-- UTF-8 encoding of one scalar value, as Python `str.encode("utf-8")`
produces per character. -/
def utf8EncodeChar (c : Char) : List Nat :=
  let n := c.toNat
  if n < 128 then [n]
  else if n < 2048 then [192 + n / 64, 128 + n % 64]
  else if n < 65536 then [224 + n / 4096, 128 + n / 64 % 64, 128 + n % 64]
  else [240 + n / 262144, 128 + n / 4096 % 64, 128 + n / 64 % 64, 128 + n % 64]

/-- Python `str.encode("utf-8")` as a byte list. -/
def pyEncodeUtf8 (s : String) : List Nat :=
  (s.data.map utf8EncodeChar).flatten

/-- Python `hmac.compare_digest` on two byte strings: behaviourally, equality (the
constant-time execution profile is not observable in this model). -/
def compareDigest (a b : List Nat) : Bool :=
  a = b

/-- Constant `_HASH_NAME` in `security.py`. -/
def _HASH_NAME : String := "sha256"

/-- Constant `_PBKDF2_ITERATIONS` in `security.py`. -/
def _PBKDF2_ITERATIONS : Nat := 100000

/-- Constant `_SALT_SIZE` in `security.py` (length of `os.urandom(_SALT_SIZE)`). -/
def _SALT_SIZE : Nat := 16

/-- Function `get_password_hash(password)` from `security.py`, with the random salt
drawn by `os.urandom` made an explicit argument and `hashlib.pbkdf2_hmac`
a function parameter.  Raises `ValueError` (returns `none`) on the empty
password; otherwise returns
`"pbkdf2_" + algo + "$" + iterations + "$" + salt.hex() + "$" + dk.hex()`. -/
def get_password_hash (pbkdf2 : List Nat → List Nat → Nat → List Nat)
    (salt : List Nat) (password : String) : Option String :=
  if password = "" then none
  else
    let dk := pbkdf2 (pyEncodeUtf8 password) salt _PBKDF2_ITERATIONS
    some ("pbkdf2_" ++ _HASH_NAME ++ "$" ++ toString _PBKDF2_ITERATIONS ++ "$"
      ++ bytesToHex salt ++ "$" ++ bytesToHex dk)

/-- The fields recovered from a stored credential record by the `try`
block of `verify_password`. -/
structure ParsedRecord where
  method : List Char
  iterations : Int
  salt : List Nat
  expected : List Nat
  deriving Repr, DecidableEq

/-- The `try` block of `verify_password`:
`hashed_password.split("$", 3)` destructured into exactly four fields
(a `ValueError` otherwise), the `method.startswith("pbkdf2_")` guard,
`int(it_str)`, and `bytes.fromhex` on salt and key.  Every failure path —
too few fields, bad prefix, unparsable integer, non-hex data — ends in
`return False`, so the caller folds `none` into `false`. -/
def parseRecord (hashed_password : String) : Option ParsedRecord :=
  match pySplit '$' 3 hashed_password with
  | [method, it_str, salt_hex, dk_hex] =>
    if List.isPrefixOf "pbkdf2_".data method then
      match pyIntParse it_str, bytesFromHex salt_hex, bytesFromHex dk_hex with
      | some iterations, some salt, some expected =>
        some ⟨method, iterations, salt, expected⟩
      | _, _, _ => none
    else none
  | _ => none

/-- Function `verify_password(plain_password, hashed_password)` from `security.py`.
The parse failures caught by its `except Exception` return `some false`;
the `hashlib.pbkdf2_hmac` call sits *outside* the `try`, and CPython's
`pbkdf2_hmac` raises `ValueError` when `iterations < 1` (and
`OverflowError` when the parsed iteration count exceeds the C `long`
range, `2^63 - 1` on a 64-bit build), so those paths are escaping
exceptions, modelled `none`. -/
def verify_password (pbkdf2 : List Nat → List Nat → Nat → List Nat)
    (plain_password hashed_password : String) : Option Bool :=
  match parseRecord hashed_password with
  | none => some false
  | some pr =>
    if pr.iterations < 1 ∨ 9223372036854775807 < pr.iterations then none
    else
      some (compareDigest
        (pbkdf2 (pyEncodeUtf8 plain_password) pr.salt pr.iterations.toNat)
        pr.expected)


/-- The JSON values that can sit in a signed payload in this system:
integers, strings, booleans, `null`.  (`create_access_token` only ever
stores integers and strings; the other constructors let the model speak
about foreign tokens signed with the same secret.) -/
inductive JVal where
  | int (n : Int)
  | str (s : String)
  | bool (b : Bool)
  | null
  deriving Repr, DecidableEq

/-- A JSON object payload, as an association list (the payloads built by
this code have pairwise distinct keys). -/
def Dict := List (String × JVal)
  deriving DecidableEq

/-- Python `dict.get(key)`: the value under the first matching key, or
`None` (here `none`) when the key is absent. -/
def dictGet (d : Dict) (k : String) : Option JVal :=
  match d with
  | [] => none
  | (k', v) :: rest => if k' = k then some v else dictGet rest k

/-- Python `int(x)` on a JSON value, as used on `payload.get("exp")`:
an `int` is returned as is, a `str` is parsed in decimal, a `bool` maps to
`0`/`1`; `int(None)` raises `TypeError` and a non-numeric string raises
`ValueError`, both modelled `none`. -/
def pyIntJ : JVal → Option Int
  | JVal.int n => some n
  | JVal.str s => pyIntParse s.data
  | JVal.bool b => some (if b then 1 else 0)
  | JVal.null => none

/-- Symbolic model of an itsdangerous token string: either the result of
`Serializer(secret).dumps(payload)`, or any other string (whose signature
verifies under no secret). -/
inductive Token where
  | signed (secret : String) (payload : Dict)
  | garbage (s : String)
  deriving DecidableEq

/-- The itsdangerous `Serializer(secret).dumps(payload)` of `_get_token_serializer`. -/
def itsdangerous_dumps (secret : String) (payload : Dict) : Token :=
  Token.signed secret payload

/-- The itsdangerous `Serializer(secret).loads(token)`: returns the signed payload exactly
when the token was signed with the same `secret`; raises `BadSignature`
(modelled `none`) on any other input — the payload is never surfaced when
the signature check fails. -/
def itsdangerous_loads (secret : String) (token : Token) : Option Dict :=
  match token with
  | Token.signed s payload => if s = secret then some payload else none
  | Token.garbage _ => none

/-- Setting `settings.access_token_expires_minutes`: default `60` from
`app/core/config.py` (env `ACCESS_TOKEN_EXPIRES_MINUTES`, default "60"). -/
def access_token_expires_minutes : Int := 60

/-- Function `create_access_token(user_id, role, expires_delta)` from `security.py`,
with the server secret and the clock reading `int(time.time())` explicit.
`expires_delta` is a `timedelta`, carried here as its
`int(.total_seconds())` value; `None` selects the configured default.
The payload is `{"user_id":…, "role":…, "iat": now, "exp": now + ttl}`,
signed by the serializer. -/
def create_access_token (secret : String) (user_id : Int) (role : String)
    (expires_delta : Option Int) (now : Int) : Token :=
  let exp_seconds : Int :=
    match expires_delta with
    | none => 60 * access_token_expires_minutes
    | some d => d
  itsdangerous_dumps secret
    [("user_id", JVal.int user_id), ("role", JVal.str role),
     ("iat", JVal.int now), ("exp", JVal.int (now + exp_seconds))]

/-- Function `decode_token(token)` from `security.py`, with the server secret and
the clock reading `int(time.time())` explicit.  Empty token → `None`;
`loads` failure (`BadSignature` or anything else) → `None`; then
`exp = payload.get("exp")` and `None` is returned when `exp` is `None`,
when `int(exp)` raises, or when `int(exp) < now`; otherwise the payload. -/
def decode_token (secret : String) (now : Int) (token : Token) :
    Option Dict :=
  if token = Token.garbage "" then none
  else
    match itsdangerous_loads secret token with
    | none => none
    | some payload =>
      match dictGet payload "exp" with
      | none => none
      | some v =>
        if v = JVal.null then none
        else
          match pyIntJ v with
          | none => none
          | some e => if e < now then none else some payload


/-! ## Splitting lemmas -/

theorem pySplitAux_no_sep (sep : Char) (cs : List Char)
    (h : ∀ c ∈ cs, c ≠ sep) :
    ∀ fuel acc, pySplitAux sep cs fuel acc = [acc.reverse ++ cs] := by
  induction cs with
  | nil => intro fuel acc; simp [pySplitAux]
  | cons c rest ih =>
    intro fuel acc
    have hc : ¬ (c = sep) := h c (by simp)
    have hrest : ∀ x ∈ rest, x ≠ sep := fun x hx => h x (by simp [hx])
    simp only [pySplitAux, if_neg hc]
    rw [ih hrest fuel (c :: acc)]
    simp

theorem pySplitAux_sep_succ (sep : Char) (xs : List Char)
    (h : ∀ c ∈ xs, c ≠ sep) :
    ∀ rest f acc, pySplitAux sep (xs ++ sep :: rest) (f + 1) acc =
      (acc.reverse ++ xs) :: pySplitAux sep rest f [] := by
  induction xs with
  | nil => intro rest f acc; simp [pySplitAux]
  | cons c xs ih =>
    intro rest f acc
    have hc : ¬ (c = sep) := h c (by simp)
    have hxs : ∀ x ∈ xs, x ≠ sep := fun x hx => h x (by simp [hx])
    simp only [List.cons_append, pySplitAux, if_neg hc, List.append_eq]
    rw [ih hxs rest f (c :: acc)]
    simp

theorem pySplitAux_sep (sep : Char) (xs : List Char) (h : ∀ c ∈ xs, c ≠ sep)
    (rest : List Char) (fuel : Nat) (hf : 1 ≤ fuel) (acc : List Char) :
    pySplitAux sep (xs ++ sep :: rest) fuel acc =
      (acc.reverse ++ xs) :: pySplitAux sep rest (fuel - 1) [] := by
  obtain ⟨f, rfl⟩ : ∃ f, fuel = f + 1 := ⟨fuel - 1, by omega⟩
  simp [pySplitAux_sep_succ sep xs h rest f acc]

theorem pySplitAux_four (sep : Char) (A B C D : List Char) (fuel : Nat)
    (hf : 3 ≤ fuel)
    (hA : ∀ c ∈ A, c ≠ sep) (hB : ∀ c ∈ B, c ≠ sep)
    (hC : ∀ c ∈ C, c ≠ sep) (hD : ∀ c ∈ D, c ≠ sep) :
    pySplitAux sep (A ++ sep :: (B ++ sep :: (C ++ sep :: D))) fuel [] =
      [A, B, C, D] := by
  rw [pySplitAux_sep sep A hA _ fuel (by omega) []]
  rw [pySplitAux_sep sep B hB _ (fuel - 1) (by omega) []]
  rw [pySplitAux_sep sep C hC _ (fuel - 1 - 1) (by omega) []]
  rw [pySplitAux_no_sep sep D hD]
  simp

/-! ## Hex lemmas -/

theorem hexDigitChar_ne_dollar : ∀ n < 16, hexDigitChar n ≠ '$' := by decide

theorem hexDigitVal_hexDigitChar : ∀ n < 16, hexDigitVal (hexDigitChar n) = some n := by
  decide

theorem byteToHexL_ne_dollar (b : Nat) (hb : b < 256) :
    ∀ c ∈ byteToHexL b, c ≠ '$' := by
  intro c hc
  have h1 : b / 16 < 16 := by omega
  have h2 : b % 16 < 16 := by omega
  simp only [byteToHexL, List.mem_cons, List.mem_singleton, List.not_mem_nil] at hc
  rcases hc with h | h | h
  · exact h ▸ hexDigitChar_ne_dollar _ h1
  · exact h ▸ hexDigitChar_ne_dollar _ h2
  · exact absurd h (by simp)

theorem bytesToHexL_ne_dollar (bs : List Nat) (h : ∀ b ∈ bs, b < 256) :
    ∀ c ∈ bytesToHexL bs, c ≠ '$' := by
  intro c hc
  simp only [bytesToHexL, List.mem_flatten, List.mem_map] at hc
  obtain ⟨l, ⟨b, hb, rfl⟩, hcl⟩ := hc
  exact byteToHexL_ne_dollar b (h b hb) c hcl

theorem bytesFromHex_bytesToHexL (bs : List Nat) (h : ∀ b ∈ bs, b < 256) :
    bytesFromHex (bytesToHexL bs) = some bs := by
  induction bs with
  | nil => simp [bytesToHexL, bytesFromHex]
  | cons b rest ih =>
    have hb : b < 256 := h b (by simp)
    have h1 : b / 16 < 16 := by omega
    have h2 : b % 16 < 16 := by omega
    have hrest : ∀ x ∈ rest, x < 256 := fun x hx => h x (by simp [hx])
    simp only [bytesToHexL, List.map_cons, List.flatten_cons, byteToHexL,
      List.cons_append, List.append_eq, List.nil_append, bytesFromHex]
    rw [hexDigitVal_hexDigitChar _ h1, hexDigitVal_hexDigitChar _ h2]
    rw [show (rest.map byteToHexL).flatten = bytesToHexL rest from rfl, ih hrest]
    have hb16 : 16 * (b / 16) + b % 16 = b := by omega
    simp [hb16]

/-! ## The serialized record produced by `get_password_hash` -/

theorem hash_record_data (salt dk : List Nat) :
    ("pbkdf2_" ++ _HASH_NAME ++ "$" ++ toString _PBKDF2_ITERATIONS ++ "$"
        ++ bytesToHex salt ++ "$" ++ bytesToHex dk).data =
      "pbkdf2_sha256".data ++ '$' :: ("100000".data
        ++ '$' :: (bytesToHexL salt ++ '$' :: bytesToHexL dk)) := by
  have h0 : ("pbkdf2_" ++ _HASH_NAME ++ "$" ++ toString _PBKDF2_ITERATIONS
      ++ "$" : String) = "pbkdf2_sha256$100000$" := by decide
  rw [show ("pbkdf2_" ++ _HASH_NAME ++ "$" ++ toString _PBKDF2_ITERATIONS ++ "$"
      ++ bytesToHex salt ++ "$" ++ bytesToHex dk : String)
    = (("pbkdf2_" ++ _HASH_NAME ++ "$" ++ toString _PBKDF2_ITERATIONS ++ "$")
      ++ bytesToHex salt ++ "$" ++ bytesToHex dk) from rfl, h0]
  simp only [String.data_append, bytesToHex]
  simp

theorem parseRecord_hash_output (salt dk : List Nat)
    (hs : ∀ b ∈ salt, b < 256) (hd : ∀ b ∈ dk, b < 256) :
    parseRecord ("pbkdf2_" ++ _HASH_NAME ++ "$" ++ toString _PBKDF2_ITERATIONS
        ++ "$" ++ bytesToHex salt ++ "$" ++ bytesToHex dk) =
      some ⟨"pbkdf2_sha256".data, 100000, salt, dk⟩ := by
  unfold parseRecord pySplit
  rw [hash_record_data salt dk]
  rw [pySplitAux_four '$' "pbkdf2_sha256".data "100000".data
    (bytesToHexL salt) (bytesToHexL dk) 3 (by omega)
    (by decide) (by decide)
    (bytesToHexL_ne_dollar salt hs) (bytesToHexL_ne_dollar dk hd)]
  simp only [bytesFromHex_bytesToHexL salt hs, bytesFromHex_bytesToHexL dk hd,
    show List.isPrefixOf "pbkdf2_".data "pbkdf2_sha256".data = true from by decide,
    show pyIntParse "100000".data = some 100000 from by decide, if_true]

/-! ## Claims about the password hasher -/

/-- C1: for every non-empty password `P` and every salt the hash
operation may draw (and every function `hashlib.pbkdf2_hmac` may
compute, provided it returns bytes), verifying `P` against the record
produced by hashing `P` succeeds: `verify(P, hash(P))` returns `True`. -/
theorem hash_verify_roundtrip (pbkdf2 : List Nat → List Nat → Nat → List Nat)
    (hpb : ∀ pw s it, ∀ b ∈ pbkdf2 pw s it, b < 256)
    (salt : List Nat) (hs : ∀ b ∈ salt, b < 256)
    (password : String) (hp : password ≠ "") :
    ∃ record, get_password_hash pbkdf2 salt password = some record ∧
      verify_password pbkdf2 password record = some true := by
  refine ⟨"pbkdf2_" ++ _HASH_NAME ++ "$" ++ toString _PBKDF2_ITERATIONS ++ "$"
    ++ bytesToHex salt
    ++ "$" ++ bytesToHex (pbkdf2 (pyEncodeUtf8 password) salt _PBKDF2_ITERATIONS),
    ?_, ?_⟩
  · simp [get_password_hash, hp]
  · unfold verify_password
    rw [parseRecord_hash_output salt _ hs (hpb _ _ _)]
    simp [compareDigest, _PBKDF2_ITERATIONS]

/-- Concrete instance of `hash_verify_roundtrip`: password `"pw"`, salt
`[171]`, a stub derived-key function. -/
theorem hash_verify_roundtrip_witness :
    ∃ record,
      get_password_hash (fun _ _ _ => [7]) [171] "pw" = some record ∧
      verify_password (fun _ _ _ => [7]) "pw" record = some true :=
  hash_verify_roundtrip (fun _ _ _ => [7])
    (by intro pw s it b hb; simp at hb; omega)
    [171] (by decide) "pw" (by decide)

/-- C7: for every non-empty password (any salt, any byte-valued pbkdf2),
the record returned by `get_password_hash` splits on `$` into exactly
four fields: the algorithm name `pbkdf2_sha256`, the fixed iteration
count `100000` in decimal, the salt in hex, and the derived key in hex. -/
theorem hash_record_serialized_form
    (pbkdf2 : List Nat → List Nat → Nat → List Nat)
    (hpb : ∀ pw s it, ∀ b ∈ pbkdf2 pw s it, b < 256)
    (salt : List Nat) (hs : ∀ b ∈ salt, b < 256)
    (password : String) (hp : password ≠ "") :
    ∃ record, get_password_hash pbkdf2 salt password = some record ∧
      pySplitAll '$' record =
        ["pbkdf2_sha256".data, "100000".data, bytesToHexL salt,
         bytesToHexL (pbkdf2 (pyEncodeUtf8 password) salt _PBKDF2_ITERATIONS)] := by
  refine ⟨"pbkdf2_" ++ _HASH_NAME ++ "$" ++ toString _PBKDF2_ITERATIONS ++ "$"
    ++ bytesToHex salt
    ++ "$" ++ bytesToHex (pbkdf2 (pyEncodeUtf8 password) salt _PBKDF2_ITERATIONS),
    ?_, ?_⟩
  · simp [get_password_hash, hp]
  · unfold pySplitAll
    rw [hash_record_data salt _]
    exact pySplitAux_four '$' _ _ _ _ _
      (by simp [List.length_append])
      (by decide) (by decide)
      (bytesToHexL_ne_dollar salt hs)
      (bytesToHexL_ne_dollar _ (hpb _ _ _))

/-- Concrete instance of `hash_record_serialized_form`. -/
theorem hash_record_serialized_form_witness :
    ∃ record,
      get_password_hash (fun _ _ _ => [7]) [171] "pw" = some record ∧
      pySplitAll '$' record =
        ["pbkdf2_sha256".data, "100000".data, bytesToHexL [171],
         bytesToHexL ((fun _ _ _ => [7]) (pyEncodeUtf8 "pw") [171]
           _PBKDF2_ITERATIONS)] :=
  hash_record_serialized_form (fun _ _ _ => [7])
    (by intro pw s it b hb; simp at hb; omega)
    [171] (by decide) "pw" (by decide)

/-- C8: `get_password_hash` rejects the empty password with a
`ValueError` (`none`) and produces a record for every other password. -/
theorem hash_empty_password (pbkdf2 : List Nat → List Nat → Nat → List Nat)
    (salt : List Nat) (password : String) :
    (password = "" → get_password_hash pbkdf2 salt password = none) ∧
    (password ≠ "" →
      ∃ record, get_password_hash pbkdf2 salt password = some record) := by
  constructor
  · intro h; simp [get_password_hash, h]
  · intro h
    refine ⟨"pbkdf2_" ++ _HASH_NAME ++ "$" ++ toString _PBKDF2_ITERATIONS
      ++ "$" ++ bytesToHex salt ++ "$"
      ++ bytesToHex (pbkdf2 (pyEncodeUtf8 password) salt _PBKDF2_ITERATIONS), ?_⟩
    simp [get_password_hash, h]

/-- Concrete instance of `hash_empty_password` at `""` and `"a"`. -/
theorem hash_empty_password_witness :
    get_password_hash (fun _ _ _ => [7]) [] "" = none ∧
    ∃ record, get_password_hash (fun _ _ _ => [7]) [] "a" = some record :=
  ⟨(hash_empty_password (fun _ _ _ => [7]) [] "").1 rfl,
   (hash_empty_password (fun _ _ _ => [7]) [] "a").2 (by decide)⟩

/-- C9: `verify_password` checks only the `pbkdf2_` prefix of the
algorithm field and then recomputes with the fixed `_HASH_NAME` hash; two
records that parse to the same iteration count, salt and stored key —
whatever their (necessarily `pbkdf2_`-prefixed) algorithm names — verify
identically against every plaintext. -/
theorem verify_method_suffix_irrelevant
    (pbkdf2 : List Nat → List Nat → Nat → List Nat) (plain r1 r2 : String)
    (m1 m2 : List Char) (it : Int) (salt dk : List Nat)
    (h1 : parseRecord r1 = some ⟨m1, it, salt, dk⟩)
    (h2 : parseRecord r2 = some ⟨m2, it, salt, dk⟩) :
    verify_password pbkdf2 plain r1 = verify_password pbkdf2 plain r2 := by
  unfold verify_password
  rw [h1, h2]

/-- Concrete instance of `verify_method_suffix_irrelevant`:
`pbkdf2_sha256` versus `pbkdf2_md5` with identical remaining fields. -/
theorem verify_method_suffix_irrelevant_witness :
    verify_password (fun _ _ _ => [7]) "pw" "pbkdf2_sha256$1$ab$cd" =
      verify_password (fun _ _ _ => [7]) "pw" "pbkdf2_md5$1$ab$cd" :=
  verify_method_suffix_irrelevant (fun _ _ _ => [7]) "pw"
    "pbkdf2_sha256$1$ab$cd" "pbkdf2_md5$1$ab$cd"
    "pbkdf2_sha256".data "pbkdf2_md5".data 1 [171] [205]
    (by decide) (by decide)

/-- C5 (code behaviour at the failing input): a record that parses with a
non-positive iteration count — e.g. `pbkdf2_sha256$0$ab$cd` — reaches the
`hashlib.pbkdf2_hmac` call outside the `try`, which raises `ValueError`;
`verify_password` propagates the exception (`none`) instead of returning
`False`, for every plaintext and every derived-key function. -/
theorem verify_nonpositive_iterations_raises
    (pbkdf2 : List Nat → List Nat → Nat → List Nat) (plain : String) :
    verify_password pbkdf2 plain "pbkdf2_sha256$0$ab$cd" = none := by
  unfold verify_password
  rw [show parseRecord "pbkdf2_sha256$0$ab$cd" =
    some ⟨"pbkdf2_sha256".data, 0, [171], [205]⟩ from by decide]
  norm_num

/-! ## Claims about the token codec -/

/-- The payload carried by a token, when it is a signed token. -/
def tokenPayload : Token → Option Dict
  | Token.signed _ payload => some payload
  | Token.garbage _ => none

/-- C2: decoding a freshly created token — at any instant `t'` from the
creation instant `t` up to `t + ttl`, for any non-negative `ttl` —
succeeds and returns the payload with `user_id = uid`, `role = role`,
`iat = t` and `exp = t + ttl`, so `issued_at ≤ now ≤ expires_at`. -/
theorem create_decode_roundtrip (secret : String) (uid : Int) (role : String)
    (ttl t t' : Int) (h0 : 0 ≤ ttl) (h1 : t ≤ t') (h2 : t' ≤ t + ttl) :
    ∃ payload,
      decode_token secret t'
          (create_access_token secret uid role (some ttl) t) = some payload ∧
      dictGet payload "user_id" = some (JVal.int uid) ∧
      dictGet payload "role" = some (JVal.str role) ∧
      dictGet payload "iat" = some (JVal.int t) ∧
      dictGet payload "exp" = some (JVal.int (t + ttl)) ∧
      t ≤ t' ∧ t' ≤ t + ttl := by
  refine ⟨[("user_id", JVal.int uid), ("role", JVal.str role),
    ("iat", JVal.int t), ("exp", JVal.int (t + ttl))], ?_, ?_, ?_, ?_, ?_, h1, h2⟩
  · simp only [create_access_token, itsdangerous_dumps, decode_token,
      itsdangerous_loads]
    rw [if_neg (by simp)]
    simp [dictGet, pyIntJ]
    omega
  · simp [dictGet]
  · simp [dictGet]
  · simp [dictGet]
  · simp [dictGet]

/-- Concrete instance of `create_decode_roundtrip`:
`decode(create(42, "student", 3600))` immediately after creation. -/
theorem create_decode_roundtrip_witness :
    ∃ payload,
      decode_token "k" 1000
          (create_access_token "k" 42 "student" (some 3600) 1000) =
        some payload ∧
      dictGet payload "user_id" = some (JVal.int 42) ∧
      dictGet payload "role" = some (JVal.str "student") ∧
      dictGet payload "iat" = some (JVal.int 1000) ∧
      dictGet payload "exp" = some (JVal.int (1000 + 3600)) ∧
      (1000 : Int) ≤ 1000 ∧ (1000 : Int) ≤ 1000 + 3600 :=
  create_decode_roundtrip "k" 42 "student" 3600 1000 1000
    (by decide) (by decide) (by decide)

/-- C3 counterexample: a tampered token (whose signature does not verify)
and an expired token (valid signature, `exp` already past) both decode to
the very same result `None` — the code returns no `TamperedOrUnknownToken`
/ `ExpiredToken` signal, so the two invalid outcomes cannot be told
apart. -/
theorem decode_invalid_reasons_collide :
    decode_token "secret" 100 (Token.garbage "tampered") = none ∧
    decode_token "secret" 100
      (create_access_token "secret" 1 "student" (some (-2)) 50) = none ∧
    decode_token "secret" 100 (Token.garbage "tampered") =
      decode_token "secret" 100
        (create_access_token "secret" 1 "student" (some (-2)) 50) := by
  refine ⟨by decide, by decide, by decide⟩

/-- C3 amended:  `decode_token` surfaces every failure — bad signature,
expiry, missing or malformed `exp` — as the single undifferentiated
invalid result `None`; the only possible outcomes are `None` or the
signed payload itself, so callers can distinguish valid from invalid but
not the reason for invalidity. -/
theorem decode_single_invalid_result (secret : String) (now : Int)
    (tok : Token) :
    decode_token secret now tok = none ∨
    ∃ payload, tok = Token.signed secret payload ∧
      decode_token secret now tok = some payload := by
  cases tok with
  | garbage s =>
    left
    simp [decode_token, itsdangerous_loads]
  | signed s d =>
    by_cases hs : s = secret
    · subst hs
      rcases hd : dictGet d "exp" with _ | v
      · left; simp [decode_token, itsdangerous_loads, hd]
      · by_cases hn : v = JVal.null
        · left; simp [decode_token, itsdangerous_loads, hd, hn]
        · rcases he : pyIntJ v with _ | e
          · left; simp [decode_token, itsdangerous_loads, hd, hn, he]
          · by_cases hlt : e < now
            · left; simp [decode_token, itsdangerous_loads, hd, hn, he, hlt]
            · right
              exact ⟨d, rfl, by
                simp [decode_token, itsdangerous_loads, hd, hn, he, hlt]⟩
    · left; simp [decode_token, itsdangerous_loads, hs]

/-- C4 counterexample: `create` with `ttl = 0` at time `1000` produces a
payload whose `exp` equals its `iat` (both `1000`), so the claimed
invariant `expires_at > issued_at` fails. -/
theorem create_zero_ttl_exp_not_gt_iat :
    (tokenPayload (create_access_token "s" 1 "student" (some 0) 1000)).bind
        (fun d => dictGet d "iat") = some (JVal.int 1000) ∧
    (tokenPayload (create_access_token "s" 1 "student" (some 0) 1000)).bind
        (fun d => dictGet d "exp") = some (JVal.int 1000) ∧
    ¬ ((1000 : Int) < 1000) := by
  refine ⟨by decide, by decide, by decide⟩

/-- C4 amended: the payload produced by `create` has `iat = now` and
`exp = now + ttl`, so the invariant `expires_at > issued_at` holds
precisely when `ttl > 0` — in particular for the configured default TTL
(60 minutes = 3600 seconds) — and fails for `ttl ≤ 0`. -/
theorem create_exp_gt_iat_iff (secret : String) (uid : Int) (role : String)
    (ttl now : Int) :
    (∃ d, tokenPayload (create_access_token secret uid role (some ttl) now) =
        some d ∧
      dictGet d "iat" = some (JVal.int now) ∧
      dictGet d "exp" = some (JVal.int (now + ttl)) ∧
      (now < now + ttl ↔ 0 < ttl)) ∧
    (∃ d, tokenPayload (create_access_token secret uid role none now) =
        some d ∧
      dictGet d "iat" = some (JVal.int now) ∧
      dictGet d "exp" = some (JVal.int (now + 3600)) ∧
      now < now + 3600) := by
  constructor
  · refine ⟨_, rfl, ?_, ?_, by omega⟩ <;>
      simp [create_access_token, itsdangerous_dumps, tokenPayload, dictGet]
  · refine ⟨_, rfl, ?_, ?_, by omega⟩ <;>
      simp [create_access_token, itsdangerous_dumps, tokenPayload, dictGet,
        access_token_expires_minutes]

/-- C6: expiry is terminal.  (i) A signed token whose embedded integer
`exp` lies strictly before the decoding clock decodes to `None`; (ii) a
`None` decode can never revert: decoding the same token at any later
clock still yields `None`; (iii) a token created with `ttl = -1` is
already expired at creation and decodes to `None` at every
`now ≥` its creation instant. -/
theorem decode_expiry_terminal (secret : String) (tok : Token)
    (now now' : Int) (h : now ≤ now') :
    (∀ payload e, tok = Token.signed secret payload →
        dictGet payload "exp" = some (JVal.int e) → e < now →
        decode_token secret now tok = none) ∧
    (decode_token secret now tok = none →
        decode_token secret now' tok = none) ∧
    (∀ uid role t, t ≤ now →
        decode_token secret now
          (create_access_token secret uid role (some (-1)) t) = none) := by
  refine ⟨?_, ?_, ?_⟩
  · rintro payload e rfl h2 h3
    simp [decode_token, itsdangerous_loads, h2, pyIntJ, h3]
  · intro hnone
    cases tok with
    | garbage s => simp [decode_token, itsdangerous_loads]
    | signed s d =>
      by_cases hs : s = secret
      · subst hs
        rcases hd : dictGet d "exp" with _ | v
        · simp [decode_token, itsdangerous_loads, hd]
        · by_cases hn : v = JVal.null
          · simp [decode_token, itsdangerous_loads, hd, hn]
          · rcases he : pyIntJ v with _ | e
            · simp [decode_token, itsdangerous_loads, hd, hn, he]
            · by_cases hlt : e < now
              · simp [decode_token, itsdangerous_loads, hd, hn, he,
                  show e < now' from by omega]
              · exfalso
                simp [decode_token, itsdangerous_loads, hd, hn, he, hlt]
                  at hnone
      · simp [decode_token, itsdangerous_loads, hs]
  · intro uid role t ht
    simp [create_access_token, itsdangerous_dumps, decode_token,
      itsdangerous_loads, dictGet, pyIntJ, access_token_expires_minutes]
    omega

/-- Concrete instance of `decode_expiry_terminal`: a token with `exp = 10`
decoded at `now = 20 > 10` is `None`. -/
theorem decode_expiry_terminal_witness :
    decode_token "k" 20 (Token.signed "k" [("exp", JVal.int 10)]) = none :=
  (decode_expiry_terminal "k" (Token.signed "k" [("exp", JVal.int 10)]) 20 30
      (by decide)).1
    [("exp", JVal.int 10)] 10 rfl (by decide) (by decide)

/-- C10: a token whose signature verifies but whose payload has no `exp`
key, or whose `exp` value is not convertible by `int(...)` (for example a
non-numeric string, or `null`), decodes to `None`, never to the
payload. -/
theorem decode_missing_or_bad_exp (secret : String) (now : Int)
    (payload : Dict)
    (h : dictGet payload "exp" = none ∨
      ∃ v, dictGet payload "exp" = some v ∧ pyIntJ v = none) :
    decode_token secret now (Token.signed secret payload) = none := by
  rcases h with h | ⟨v, hv, hiv⟩
  · simp [decode_token, itsdangerous_loads, h]
  · by_cases hn : v = JVal.null
    · simp [decode_token, itsdangerous_loads, hv, hn]
    · simp [decode_token, itsdangerous_loads, hv, hn, hiv]

/-- Concrete instances of `decode_missing_or_bad_exp`: a payload with no
`exp` key, and one whose `exp` is the non-numeric string `"soon"`. -/
theorem decode_missing_or_bad_exp_witness :
    decode_token "k" 0 (Token.signed "k" [("user_id", JVal.int 1)]) = none ∧
    decode_token "k" 0 (Token.signed "k" [("exp", JVal.str "soon")]) = none :=
  ⟨decode_missing_or_bad_exp "k" 0 [("user_id", JVal.int 1)]
      (Or.inl (by decide)),
   decode_missing_or_bad_exp "k" 0 [("exp", JVal.str "soon")]
      (Or.inr ⟨JVal.str "soon", by decide, by decide⟩)⟩
